import Mathlib

/-!
Verification of the video_agent conversational-assistant backend.

This file gives a shallow embedding, in Lean 4, of the request-orchestration
pipeline and the tiered memory subsystem of the repository:

* Go strings are modelled as byte lists (`GoStr := List Nat`, each entry < 256),
  since Go strings are byte slices and the source indexes and slices them by
  byte position.  String literals are injected via a UTF-8 encoder `gs`.
* JSON values parsed by encoding/json into `map[string]interface{}` /
  `[]interface{}` / `float64` / `string` / `bool` / `nil` are modelled by the
  inductive type `Json` (numbers as rationals: every JSON number the claims
  quantify over is within the float64 safe-integer range, where the float64
  value is exact).
* External collaborators (the language-model service, the MCP tool protocol,
  the embedding function, the vector index, the wall clock) are passed in as
  explicit oracle parameters.
* Stateful Go code becomes explicit state passing over structures of lists.

All definitions are executable; concrete claims are settled by kernel
evaluation (`decide` / `rfl`).
-/

set_option maxRecDepth 20000

namespace VideoAgent

/-! ## Go strings as byte lists -/

/-- Go strings are byte slices; a Go string is modelled as its list of bytes. -/
abbrev GoStr := List Nat

/-- UTF-8 encoding of a code point as a byte list. -/
def utf8BytesOfNat (n : Nat) : List Nat :=
  if n < 0x80 then [n]
  else if n < 0x800 then [0xC0 + n / 64, 0x80 + n % 64]
  else if n < 0x10000 then [0xE0 + n / 4096, 0x80 + n / 64 % 64, 0x80 + n % 64]
  else [0xF0 + n / 262144, 0x80 + n / 4096 % 64, 0x80 + n / 64 % 64, 0x80 + n % 64]

/-- UTF-8 encoding of a single character as a byte list. -/
def utf8Bytes (c : Char) : List Nat := utf8BytesOfNat c.toNat

/-- Inject a Lean string literal as the byte list of its UTF-8 encoding,
the representation Go uses for the same literal. -/
def gs (s : String) : GoStr := (s.data.map utf8Bytes).flatten

/-- Model of Go strings.ToLower restricted to ASCII case mapping (all
keywords in the source are ASCII or CJK; CJK bytes are ≥ 0x80 and unaffected
by case mapping, so on the inputs the source compares this agrees with Go). -/
def goToLower (s : GoStr) : GoStr :=
  s.map fun b => if 65 ≤ b ∧ b ≤ 90 then b + 32 else b

/-- Does the byte list start with the given byte list? -/
def hasPrefixB : GoStr → GoStr → Bool
  | _, [] => true
  | [], _ :: _ => false
  | a :: s, b :: p => a == b && hasPrefixB s p

/-- Model of Go strings.Contains (byte-level substring test). -/
def containsSub : GoStr → GoStr → Bool
  | [], needle => needle.isEmpty
  | hay@(_ :: rest), needle => hasPrefixB hay needle || containsSub rest needle

/-- Model of Go strings.Index: byte offset of the first occurrence,
`none` standing for the -1 "not found" result. -/
def indexOfSub : GoStr → GoStr → Option Nat
  | hay, needle =>
    if hasPrefixB hay needle then some 0
    else
      match hay with
      | [] => none
      | _ :: rest => (indexOfSub rest needle).map (· + 1)

/-- Model of Go strings.LastIndex for a single byte (used with brace bytes). -/
def lastIndexOfByte (s : GoStr) (b : Nat) : Option Nat :=
  (s.reverse.findIdx? (· = b)).map fun i => s.length - 1 - i

/-- Go byte-slice expression s[i:j] (on in-range indices). -/
def sliceL (s : GoStr) (i j : Nat) : GoStr := (s.drop i).take (j - i)

instance {ε α : Type} [DecidableEq ε] [DecidableEq α] :
    DecidableEq (Except ε α) := fun a b =>
  match a, b with
  | .ok x, .ok y =>
    if h : x = y then isTrue (by rw [h])
    else isFalse fun hh => by cases hh; exact h rfl
  | .error x, .error y =>
    if h : x = y then isTrue (by rw [h])
    else isFalse fun hh => by cases hh; exact h rfl
  | .ok _, .error _ => isFalse fun hh => by cases hh
  | .error _, .ok _ => isFalse fun hh => by cases hh

/-! ## JSON values as parsed by encoding/json

encoding/json unmarshals into `map[string]interface{}`: objects become maps,
arrays `[]interface{}`, numbers `float64`, strings `string`, booleans `bool`,
null `nil`.  Numbers are carried as rationals; on the safe-integer range the
float64 value of a JSON integer literal is exact, so the model agrees with Go
everywhere the claims quantify. -/

inductive Json where
  | null : Json
  | bool (b : Bool) : Json
  | num (q : ℚ) : Json
  | str (s : GoStr) : Json
  | arr (elems : List Json) : Json
  | obj (fields : List (GoStr × Json)) : Json

/-- Lookup in a parsed JSON object (Go map indexing; keys are unique because
the parser below keeps last occurrence, matching Go map semantics). -/
def jlookup : List (GoStr × Json) → GoStr → Option Json
  | [], _ => none
  | (k, v) :: rest, key => if k = key then some v else jlookup rest key

/-- Set a key in a parsed JSON object (Go map assignment: replace or append). -/
def setKey : List (GoStr × Json) → GoStr → Json → List (GoStr × Json)
  | [], key, v => [(key, v)]
  | (k, w) :: rest, key, v =>
    if k = key then (key, v) :: rest else (k, w) :: setKey rest key v

/-- Delete a key from a parsed JSON object (Go map delete). -/
def removeKey : List (GoStr × Json) → GoStr → List (GoStr × Json)
  | [], _ => []
  | (k, w) :: rest, key =>
    if k = key then removeKey rest key else (k, w) :: removeKey rest key

/-! ### A JSON parser (model of encoding/json's grammar)

Fuel-indexed recursive-descent parser over byte lists.  It accepts the JSON
the claims exercise (objects, arrays, strings with the simple escapes,
numbers with optional fraction and exponent, literals); number strictness
details of encoding/json (e.g. leading-zero rejection) are not modelled, and
\u escapes encode the code unit directly (no surrogate pairing) — no claim
touches either corner. -/

def skipWs (s : GoStr) : GoStr :=
  s.dropWhile fun c => c = 32 ∨ c = 9 ∨ c = 10 ∨ c = 13

def digitVal (c : Nat) : Option Nat :=
  if 48 ≤ c ∧ c ≤ 57 then some (c - 48) else none

def isDigit (c : Nat) : Bool := 48 ≤ c ∧ c ≤ 57

def digitsToNat (ds : List Nat) : Nat :=
  ds.foldl (fun acc d => acc * 10 + (d - 48)) 0

/-- Parse a JSON number (sign, integer part, optional fraction, optional
exponent), returning its exact rational value and the rest of the input. -/
def parseNum (s : GoStr) : Option (ℚ × GoStr) :=
  let (sign, s1) : ℚ × GoStr :=
    match s with
    | 45 :: rest => (-1, rest)
    | _ => (1, s)
  let (ints, s2) := s1.span isDigit
  if ints.isEmpty then none
  else
    let intPart : ℚ := (digitsToNat ints : ℚ)
    let (fracPart, s3) : ℚ × GoStr :=
      match s2 with
      | 46 :: rest =>
        let (fds, s3) := rest.span isDigit
        ((digitsToNat fds : ℚ) / (10 : ℚ) ^ fds.length, s3)
      | _ => (0, s2)
    match s3 with
    | 101 :: rest | 69 :: rest =>
      let (esign, r1) : Int × GoStr :=
        match rest with
        | 45 :: r => (-1, r)
        | 43 :: r => (1, r)
        | _ => (1, rest)
      let (eds, r2) := r1.span isDigit
      if eds.isEmpty then none
      else some (sign * (intPart + fracPart) * (10 : ℚ) ^ (esign * digitsToNat eds), r2)
    | _ => some (sign * (intPart + fracPart), s3)

def hexVal (c : Nat) : Option Nat :=
  if 48 ≤ c ∧ c ≤ 57 then some (c - 48)
  else if 97 ≤ c ∧ c ≤ 102 then some (c - 97 + 10)
  else if 65 ≤ c ∧ c ≤ 70 then some (c - 65 + 10)
  else none

/-- Parse the body of a JSON string literal (opening quote already consumed),
returning the decoded bytes and the rest of the input. -/
def parseStringLit : Nat → GoStr → Option (GoStr × GoStr)
  | 0, _ => none
  | _ + 1, [] => none
  | _ + 1, 34 :: rest => some ([], rest)
  | fuel + 1, 92 :: e :: rest =>
    match e with
    | 34 => (parseStringLit fuel rest).map fun (t, r) => (34 :: t, r)
    | 92 => (parseStringLit fuel rest).map fun (t, r) => (92 :: t, r)
    | 47 => (parseStringLit fuel rest).map fun (t, r) => (47 :: t, r)
    | 98 => (parseStringLit fuel rest).map fun (t, r) => (8 :: t, r)
    | 102 => (parseStringLit fuel rest).map fun (t, r) => (12 :: t, r)
    | 110 => (parseStringLit fuel rest).map fun (t, r) => (10 :: t, r)
    | 114 => (parseStringLit fuel rest).map fun (t, r) => (13 :: t, r)
    | 116 => (parseStringLit fuel rest).map fun (t, r) => (9 :: t, r)
    | 117 =>
      match rest with
      | h1 :: h2 :: h3 :: h4 :: rest2 => do
        let v1 ← hexVal h1
        let v2 ← hexVal h2
        let v3 ← hexVal h3
        let v4 ← hexVal h4
        let cp := ((v1 * 16 + v2) * 16 + v3) * 16 + v4
        (parseStringLit fuel rest2).map fun (t, r) => (utf8BytesOfNat cp ++ t, r)
      | _ => none
    | _ => none
  | fuel + 1, c :: rest => (parseStringLit fuel rest).map fun (t, r) => (c :: t, r)

mutual

def parseVal : Nat → GoStr → Option (Json × GoStr)
  | 0, _ => none
  | fuel + 1, s =>
    match skipWs s with
    | 110 :: 117 :: 108 :: 108 :: rest => some (.null, rest)
    | 116 :: 114 :: 117 :: 101 :: rest => some (.bool true, rest)
    | 102 :: 97 :: 108 :: 115 :: 101 :: rest => some (.bool false, rest)
    | 34 :: rest =>
      (parseStringLit (rest.length + 1) rest).map fun (t, r) => (.str t, r)
    | 91 :: rest => parseArrStart fuel rest
    | 123 :: rest => parseObjStart fuel rest
    | s1 => (parseNum s1).map fun (q, r) => (.num q, r)

def parseArrStart : Nat → GoStr → Option (Json × GoStr)
  | 0, _ => none
  | fuel + 1, s =>
    match skipWs s with
    | 93 :: rest => some (.arr [], rest)
    | s1 => do
      let (v, rem) ← parseVal fuel s1
      parseArrRest fuel [v] rem

def parseArrRest : Nat → List Json → GoStr → Option (Json × GoStr)
  | 0, _, _ => none
  | fuel + 1, acc, s =>
    match skipWs s with
    | 44 :: rest => do
      let (v, rem) ← parseVal fuel rest
      parseArrRest fuel (acc ++ [v]) rem
    | 93 :: rest => some (.arr acc, rest)
    | _ => none

def parseObjStart : Nat → GoStr → Option (Json × GoStr)
  | 0, _ => none
  | fuel + 1, s =>
    match skipWs s with
    | 125 :: rest => some (.obj [], rest)
    | 34 :: rest => parseMember fuel [] rest
    | _ => none

def parseMember : Nat → List (GoStr × Json) → GoStr → Option (Json × GoStr)
  | 0, _, _ => none
  | fuel + 1, acc, s => do
    let (key, rem) ← parseStringLit (s.length + 1) s
    match skipWs rem with
    | 58 :: rem2 => do
      let (v, rem3) ← parseVal fuel rem2
      parseObjRest fuel (setKey acc key v) rem3
    | _ => none

def parseObjRest : Nat → List (GoStr × Json) → GoStr → Option (Json × GoStr)
  | 0, _, _ => none
  | fuel + 1, acc, s =>
    match skipWs s with
    | 44 :: rest =>
      match skipWs rest with
      | 34 :: rest2 => parseMember fuel acc rest2
      | _ => none
    | 125 :: rest => some (.obj acc, rest)
    | _ => none

end

/-- Model of json.Unmarshal into `map[string]interface{}`: the input must be
a single JSON object with nothing but whitespace around it. -/
def unmarshalObject (s : GoStr) : Option (List (GoStr × Json)) :=
  match parseVal (s.length + 2) s with
  | some (.obj fields, rest) => if (skipWs rest).isEmpty then some fields else none
  | _ => none

/-! ## Base64 (model of encoding/base64 StdEncoding.DecodeString) -/

/-- Value of a standard-alphabet base64 character. -/
def b64Val (c : Nat) : Option Nat :=
  if 65 ≤ c ∧ c ≤ 90 then some (c - 65)
  else if 97 ≤ c ∧ c ≤ 122 then some (c - 97 + 26)
  else if 48 ≤ c ∧ c ≤ 57 then some (c - 48 + 52)
  else if c = 43 then some 62
  else if c = 47 then some 63
  else none

/-- Model of base64.StdEncoding.DecodeString: groups of four characters,
padding allowed only in the final group, `none` standing for a
CorruptInputError. -/
def base64Decode : GoStr → Option GoStr
  | [] => some []
  | a :: b :: c :: d :: rest => do
    let va ← b64Val a
    let vb ← b64Val b
    if c = 61 then
      if d = 61 ∧ rest = [] then some [va * 4 + vb / 16] else none
    else do
      let vc ← b64Val c
      if d = 61 then
        if rest = [] then some [va * 4 + vb / 16, vb % 16 * 16 + vc / 4] else none
      else do
        let vd ← b64Val d
        let tail ← base64Decode rest
        some ([va * 4 + vb / 16, vb % 16 * 16 + vc / 4, vc % 4 * 64 + vd] ++ tail)
  | _ => none

/-! ## Tool-result extraction (XiaovGraph, src/unnamed/part_012)

`extractVideoDataFromToolResults` reduces heterogeneous tool payloads to a
flat canonical field set.  A tool result's raw payload (the string / byte
blob case the claims quantify over) is carried as the byte list of its JSON
text. -/

/-- Go int(q) for a float64 value modelled as a rational: truncation toward
zero. -/
def goTrunc (q : ℚ) : Int := Int.tdiv q.num q.den

/-- Model of the Go helper toInt over values produced by encoding/json.
JSON numbers arrive as float64 (the num case); the string case models the
source's fmt.Sscanf(val, "%d", new(int)) call, whose first return value is
the number of items scanned — 1 when an integer was scanned, not the scanned
value (the integer goes into the discarded new(int)).  Booleans, null,
arrays and objects fall to the default case, 0. -/
def toInt : Json → Int
  | .num q => goTrunc q
  | .str s =>
    match (skipWs s) with
    | 45 :: c :: _ => if isDigit c then 1 else 0
    | 43 :: c :: _ => if isDigit c then 1 else 0
    | c :: _ => if isDigit c then 1 else 0
    | [] => 0
  | _ => 0

/-- Model of the Go helper toString over values produced by encoding/json:
strings pass through, nil becomes the empty string.  The remaining cases go
through fmt.Sprintf with the %v verb; that rendering is abbreviated to a fixed
marker here — no claim concerns a non-string value in a string field. -/
def goToString : Json → GoStr
  | .str s => s
  | .null => []
  | _ => gs "%!v"

/-- The canonical flat field set produced by the extractor, with the
zero-valued defaults of the source's result map. -/
structure VideoData where
  view_count : Int
  like_count : Int
  comment_count : Int
  title : GoStr
  description : GoStr
  author : GoStr
deriving DecidableEq, Repr

def initVideoData : VideoData := ⟨0, 0, 0, [], [], []⟩

/-- Field extraction from a `video` JSON object; the author.username lookup
only happens on the data.video path (withAuthor), exactly as in the source. -/
def applyVideoFields (withAuthor : Bool) (video : List (GoStr × Json))
    (acc : VideoData) : VideoData :=
  let acc := match jlookup video (gs "view_count") with
    | some v => { acc with view_count := toInt v }
    | none => acc
  let acc := match jlookup video (gs "like_count") with
    | some v => { acc with like_count := toInt v }
    | none => acc
  let acc := match jlookup video (gs "comment_count") with
    | some v => { acc with comment_count := toInt v }
    | none => acc
  let acc := match jlookup video (gs "title") with
    | some v => { acc with title := goToString v }
    | none => acc
  let acc := match jlookup video (gs "description") with
    | some v => { acc with description := goToString v }
    | none => acc
  if withAuthor then
    match jlookup video (gs "author") with
    | some (.obj author) =>
      match jlookup author (gs "username") with
      | some v => { acc with author := goToString v }
      | none => acc
    | _ => acc
  else acc

/-- Effective-payload selection: when the parsed object carries a nonempty
`content` array (the MCP envelope shape) whose first element is an object
with a string `text` field, the payload is the JSON object parsed from the
base64-decoded text; if the decode or the parse fails, or the first element
has no string `text`, the result is skipped (`none`).  Only when there is no
nonempty `content` array does the parsed object itself become the payload. -/
def effectiveDataMap (outer : List (GoStr × Json)) :
    Option (List (GoStr × Json)) :=
  match jlookup outer (gs "content") with
  | some (.arr (first :: _)) =>
    match first with
    | .obj cm =>
      match jlookup cm (gs "text") with
      | some (.str t) => (base64Decode t).bind unmarshalObject
      | _ => none
    | _ => none
  | some (.arr []) => some outer
  | some _ => some outer
  | none => some outer

/-- Canonical-field extraction from one effective payload: a `data.video`
nesting is tried first, then a top-level `video` object (without the author
lookup).  There is no further fallback: when neither shape is present the
accumulator is returned unchanged. -/
def extractFromOuter (acc : VideoData) (outer : List (GoStr × Json)) :
    VideoData :=
  match effectiveDataMap outer with
  | none => acc
  | some dataMap =>
    match jlookup dataMap (gs "data") with
    | some (.obj innerData) =>
      match jlookup innerData (gs "video") with
      | some (.obj video) => applyVideoFields true video acc
      | _ => acc
    | _ =>
      match jlookup dataMap (gs "video") with
      | some (.obj video) => applyVideoFields false video acc
      | _ => acc

/-- One loop iteration of extractVideoDataFromToolResults for a result whose
raw payload is the given JSON text (string / byte-blob case): parse failures
skip the result. -/
def extractFromResult (acc : VideoData) (payload : GoStr) : VideoData :=
  match unmarshalObject payload with
  | none => acc
  | some outer => extractFromOuter acc outer

/-- Model of XiaovGraph.extractVideoDataFromToolResults restricted to results
with string / byte-blob payloads (the case the claims quantify over);
nil results are simply absent from the list. -/
def extractVideoDataFromToolResults (payloads : List GoStr) : VideoData :=
  payloads.foldl extractFromResult initVideoData

/-- The round-trip payload of §8 of the spec: a content envelope whose text is
the base64 encoding of a JSON body nesting view_count 12345 under data.video. -/
def roundTripPayload : GoStr :=
  gs "\x7b\"content\":[\x7b\"text\":\"eyJkYXRhIjp7InZpZGVvIjp7InZpZXdfY291bnQiOjEyMzQ1fX19\"\x7d]\x7d"

/-! ## Intent recognition (IntentRecognitionAgent, package agent)

The agent lowercases the utterance, matches keyword lists per category in a
fixed order, and extracts entities.  The language-model call is external: its
outcome is passed in as `Option Intent` (`none` covering both a failed call
and an unparsable response, the two cases the source sends to the rule-based
fallback). -/

/-- Entity extracted from an utterance (agent.Entity). -/
structure GoEntity where
  etype : GoStr
  value : GoStr
  startPos : Nat
  endPos : Nat
deriving DecidableEq, Repr

/-- Recognized intent (agent.Intent; the Metadata map, unused by every code
path the claims touch, is omitted). IntentType is a Go string type. -/
structure Intent where
  itype : String
  confidence : ℚ
  rawQuery : GoStr
  entities : List GoEntity
deriving DecidableEq, Repr

def intentVideoAnalysis : String := "video_analysis"
def intentRecommendation : String := "recommendation"
def intentKnowledgeQA : String := "knowledge_qa"
def intentWeeklyReport : String := "weekly_report"
def intentTopicAnalysis : String := "topic_analysis"
def intentGeneralChat : String := "general_chat"

/-- End of the URL entity: advance from start while in range and the byte is
not a space (the source's manual scan loop). -/
def urlEnd (q : GoStr) (start : Nat) : Nat :=
  start + ((q.drop start).takeWhile (· ≠ 32)).length

/-- Model of IntentRecognitionAgent.extractEntities.  The BV branch guards
the slice q[idx:idx+12] only with idx+10 ≤ len(q); when idx+12 > len(q) the
Go slice expression panics — modelled as `Except.error ()`.  (The branch is
in fact dead downstream: every caller lowercases the query first, and the
needle BV is uppercase.) -/
def extractEntities (q : GoStr) : Except Unit (List GoEntity) := do
  let len := q.length
  let bvEntities : Except Unit (List GoEntity) :=
    match indexOfSub q (gs "BV") with
    | some idx =>
      if idx + 10 ≤ len then
        if idx + 12 ≤ len then
          .ok [⟨gs "video_id", sliceL q idx (idx + 12), idx, idx + 12⟩]
        else .error ()
      else .ok []
    | none => .ok []
  let es ← bvEntities
  if containsSub q (gs "http") then
    match indexOfSub q (gs "http") with
    | some start =>
      let e := urlEnd q start
      .ok (es ++ [⟨gs "url", sliceL q start e, start, e⟩])
    | none => .ok es
  else .ok es

def videoAnalysisKeywords : List GoStr :=
  [gs "分析视频", gs "视频分析", gs "这个视频", gs "视频内容", gs "视频讲了", gs "视频总结"]
def recommendKeywords : List GoStr :=
  [gs "推荐", gs "类似", gs "相似", gs "想看", gs "找一找"]
def weeklyKeywords : List GoStr :=
  [gs "周报", gs "这周", gs "本周数据", gs "数据分析", gs "我的数据"]
def topicKeywords : List GoStr :=
  [gs "选题", gs "主题", gs "这个题材", gs "内容方向"]
def knowledgeKeywords : List GoStr :=
  [gs "什么是", gs "怎么", gs "如何", gs "为什么", gs "介绍一下"]

/-- Model of IntentRecognitionAgent.ruleBasedClassify.  Every return branch
of the source calls extractEntities on the lowercased query, so the call is
hoisted; a panic in it aborts whichever branch is taken, exactly as in Go. -/
def ruleBasedClassify (query : GoStr) : Except Unit Intent := do
  let q := goToLower query
  let es ← extractEntities q
  if videoAnalysisKeywords.any (fun kw => containsSub q kw) then
    .ok ⟨intentVideoAnalysis, 8/10, q, es⟩
  else if recommendKeywords.any (fun kw => containsSub q kw) then
    .ok ⟨intentRecommendation, 8/10, q, es⟩
  else if weeklyKeywords.any (fun kw => containsSub q kw) then
    .ok ⟨intentWeeklyReport, 8/10, q, es⟩
  else if topicKeywords.any (fun kw => containsSub q kw) then
    .ok ⟨intentTopicAnalysis, 8/10, q, es⟩
  else if knowledgeKeywords.any (fun kw => containsSub q kw) then
    .ok ⟨intentKnowledgeQA, 7/10, q, es⟩
  else
    .ok ⟨intentGeneralChat, 1/2, q, es⟩

/-- Model of IntentRecognitionAgent.Recognize.  The external LM call and the
JSON parse of its response are summarized by `llmIntent`: `none` when the
call failed or the response was unparsable, `some intent` when the response
parsed.  The acceptance threshold is the agent's constructor-set confidence
field, 0.7. -/
def recognize (llmIntent : Option Intent) (query : GoStr) : Except Unit Intent :=
  match llmIntent with
  | none => ruleBasedClassify query
  | some intent0 =>
    let intent := { intent0 with rawQuery := query }
    if intent.confidence < 7/10 then
      match ruleBasedClassify query with
      | .error e => .error e
      | .ok ruleIntent =>
        if ruleIntent.confidence > intent.confidence then .ok ruleIntent
        else .ok intent
    else .ok intent

/-! ## Memory tiers (package memory, src/internal/memory/manager.go)

Per-session maps become association lists over session ids; the wall clock
becomes an integer nanosecond parameter `now`; the embedding function and
the vector index are oracles. -/

/-- memory.Memory (the Metadata map, irrelevant to every claim, is omitted;
MemoryType is a Go string type, modelled as String). Times are integer
nanoseconds, matching time.Time / time.Duration granularity. -/
structure Memory where
  id : String
  sessionId : String
  mtype : String
  content : String
  embedding : List ℚ
  importance : ℚ
  createdAt : Int
  accessedAt : Int
  accessCount : Nat
  ttl : Int
deriving DecidableEq, Repr

def memoryTypeShortTerm : String := "short_term"
def memoryTypeLongTerm : String := "long_term"
def memoryTypeWorking : String := "working"
def memoryTypeCompressed : String := "compressed"

/-- Association-list lookup (Go map indexing). -/
def lookupA {α : Type} : List (String × α) → String → Option α
  | [], _ => none
  | (k, v) :: rest, key => if k = key then some v else lookupA rest key

/-- Association-list update (Go map assignment). -/
def setA {α : Type} : List (String × α) → String → α → List (String × α)
  | [], key, v => [(key, v)]
  | (k, w) :: rest, key, v =>
    if k = key then (key, v) :: rest else (k, w) :: setA rest key v

/-- Association-list delete (Go map delete). -/
def removeA {α : Type} : List (String × α) → String → List (String × α)
  | [], _ => []
  | (k, v) :: rest, key =>
    if k = key then removeA rest key else (k, v) :: removeA rest key

/-- Model of ShortTermMemory.Get: filters the session's entries to those
younger than the TTL, rewrites the backing list to the filtered entries, and
returns them; a missing session returns nil without writing. -/
def shortTermGet (store : List (String × List Memory)) (ttl : Int) (now : Int)
    (sessionID : String) : List Memory × List (String × List Memory) :=
  match lookupA store sessionID with
  | none => ([], store)
  | some memories =>
    let valid := memories.filter fun mem => now - mem.createdAt < ttl
    (valid, setA store sessionID valid)

/-- Model of ShortTermMemory.Set: append, then keep only the most recent
maxItems. -/
def shortTermSet (store : List (String × List Memory)) (maxItems : Nat)
    (m : Memory) : List (String × List Memory) :=
  let memories := (lookupA store m.sessionId).getD []
  let memories := memories ++ [m]
  let memories :=
    if memories.length > maxItems then memories.drop (memories.length - maxItems)
    else memories
  setA store m.sessionId memories

/-- Model of WorkingMemory.Set.  When the session map exceeds maxSize the
source deletes one key chosen by Go map iteration order, which is
unspecified; the model drops the first association-list entry (the claims
never depend on which entry is evicted). -/
def workingSet (store : List (String × List (String × String))) (maxSize : Nat)
    (sid key value : String) : List (String × List (String × String)) :=
  let session := (lookupA store sid).getD []
  let session := setA session key value
  let session := if session.length > maxSize then session.drop 1 else session
  setA store sid session

/-- Model of WorkingMemory.GetAll (the source copies the session map;
values stored through MemoryManager.Store are content strings). -/
def workingGetAll (store : List (String × List (String × String)))
    (sid : String) : List (String × String) :=
  (lookupA store sid).getD []

/-- State of the long-term tier: the external vector index (id, vector) and
the metadata store, both modelled as in-memory lists (the external stores
are assumed not to fail; the failure the source propagates is the embedding
call, which stays an oracle). -/
structure LongTermState where
  vec : List (String × List ℚ)
  meta : List Memory
deriving DecidableEq, Repr

/-- The embedding step of LongTermMemory.Store: generate an embedding when
none is present; `none` models an embedding-service failure. -/
def embedOf (embed : String → Option (List ℚ)) (m : Memory) : Option Memory :=
  if m.embedding = [] then (embed m.content).map fun e => { m with embedding := e }
  else some m

/-- Model of LongTermMemory.Store: embed if needed, insert into the vector
index, save the metadata; an embedding failure returns an error and writes
nothing. -/
def longTermStore (embed : String → Option (List ℚ)) (lt : LongTermState)
    (m : Memory) : Option LongTermState :=
  (embedOf embed m).map fun em =>
    { vec := lt.vec ++ [(em.id, em.embedding)], meta := lt.meta ++ [em] }

/-- A vector-search hit (memory.SearchResult). -/
structure SearchResultS where
  id : String
  score : ℚ
deriving DecidableEq, Repr

/-- metadataStore.Get by id over the in-memory model of the metadata store. -/
def metadataGet (meta : List Memory) (id : String) : Option Memory :=
  meta.find? fun m => m.id = id

/-- The collection loop of LongTermMemory.Search: resolve each hit, skip
resolution failures, filter to the requested session when one is given,
bump access time and count, stop once topK records are collected. -/
def searchCollect (now : Int) (meta : List Memory) (sid : String) (topK : Nat) :
    List SearchResultS → List Memory → List Memory
  | [], acc => acc
  | r :: rest, acc =>
    match metadataGet meta r.id with
    | none => searchCollect now meta sid topK rest acc
    | some m =>
      if sid ≠ "" ∧ m.sessionId ≠ sid then searchCollect now meta sid topK rest acc
      else
        let m := { m with accessedAt := now, accessCount := m.accessCount + 1 }
        let acc := acc ++ [m]
        if topK ≤ acc.length then acc else searchCollect now meta sid topK rest acc

/-- Model of LongTermMemory.Search: embed the query, search the external
vector index for topK*2 candidates, collect.  `embed` and `vsearch` are the
external collaborators; `none` from either is the error return. -/
def longTermSearch (embed : String → Option (List ℚ))
    (vsearch : List ℚ → Nat → Option (List SearchResultS)) (now : Int)
    (lt : LongTermState) (query sid : String) (topK : Nat) :
    Option (List Memory) :=
  match embed query with
  | none => none
  | some qv =>
    match vsearch qv (topK * 2) with
    | none => none
    | some results => some (searchCollect now lt.meta sid topK results [])

/-- A concrete expired short-term entry: created at time 0. -/
def mOld : Memory := ⟨"old", "s", "short_term", "c1", [], 0, 0, 0, 0, 0⟩

/-- A concrete fresh short-term entry: created at time 10^9 ns. -/
def mFresh : Memory := ⟨"fresh", "s", "short_term", "c2", [], 0, 1000000000, 0, 0, 0⟩

/-- The whole MemoryManager state. -/
structure ManagerState where
  shortTerm : List (String × List Memory)
  working : List (String × List (String × String))
  longTerm : LongTermState
deriving DecidableEq, Repr

/-- The id / creation-time fixups at the top of MemoryManager.Store
(uuid generation and time.Now are oracles genId / now; a zero time is the
integer 0). -/
def fixupMemory (genId : String) (now : Int) (m : Memory) : Memory :=
  let m := if m.id = "" then { m with id := genId } else m
  if m.createdAt = 0 then { m with createdAt := now } else m

/-- Model of MemoryManager.Store: working-typed memories go to the working
scratchpad only and return immediately; every other type is written to the
short-term tier, and additionally to the long-term tier exactly when
importance > 0.7.  The second component is the returned error, populated
only when the long-term embedding step fails (the write to short-term has
already happened by then, as in the source). -/
def managerStore (embed : String → Option (List ℚ)) (maxItems maxSize : Nat)
    (genId : String) (now : Int) (st : ManagerState) (m0 : Memory) :
    ManagerState × Option String :=
  let m := fixupMemory genId now m0
  if m.mtype = memoryTypeWorking then
    ({ st with working := workingSet st.working maxSize m.sessionId m.id m.content }, none)
  else
    let st := { st with shortTerm := shortTermSet st.shortTerm maxItems m }
    if m.importance > 7/10 then
      match longTermStore embed st.longTerm m with
      | some lt => ({ st with longTerm := lt }, none)
      | none => (st, some "failed to generate embedding")
    else (st, none)

/-- Model of MemoryManager.ClearSession: clear the session's short-term and
working tiers; the long-term tier is not touched. -/
def clearSession (st : ManagerState) (sid : String) : ManagerState :=
  { st with shortTerm := removeA st.shortTerm sid,
            working := removeA st.working sid }

/-! ## MemoryManager.Retrieve -/

/-- The memory a working-store entry is rebuilt into by Retrieve: only ID,
SessionID, Type and Content are set, every other field — importance
included — is the Go zero value. -/
def workingCandidate (sid : String) (kv : String × String) : Memory :=
  { id := kv.1, sessionId := sid, mtype := memoryTypeWorking, content := kv.2,
    embedding := [], importance := 0, createdAt := 0, accessedAt := 0,
    accessCount := 0, ttl := 0 }

/-- Model of MemoryManager.calculateRelevance: 1.0 on exact content match,
otherwise 0.5 times an exponential time decay.  The decay math.Exp(-hours/24)
is floating point over the wall clock; it is abstracted as the oracle
`decayOf` (only its value enters the score, and the claims hold for every
decay). -/
def calculateRelevance (decayOf : Memory → ℚ) (m : Memory) (query : String) : ℚ :=
  if m.content = query then 1 else 1/2 * decayOf m

/-- The ranking score of Retrieve: relevance times importance. -/
def scoreOf (decayOf : Memory → ℚ) (query : String) (m : Memory) : ℚ :=
  calculateRelevance decayOf m query * m.importance

/-- The descending-score ordering Retrieve sorts by. -/
def scoreRel (decayOf : Memory → ℚ) (query : String) (a b : Memory) : Prop :=
  scoreOf decayOf query b ≤ scoreOf decayOf query a

instance (d : Memory → ℚ) (q : String) : DecidableRel (scoreRel d q) :=
  fun _ _ => inferInstanceAs (Decidable (_ ≤ _))

instance (d : Memory → ℚ) (q : String) : IsTotal Memory (scoreRel d q) :=
  ⟨fun _ _ => le_total _ _⟩

instance (d : Memory → ℚ) (q : String) : IsTrans Memory (scoreRel d q) :=
  ⟨fun _ _ _ h1 h2 => le_trans h2 h1⟩

/-- Model of MemoryManager.Retrieve: merge candidates from the working,
short-term (with its lazy-expiry rewrite) and long-term tiers (skipping the
long-term source on search error), sort by score descending, truncate to
topK.  sort.Slice is unstable, so any score-sorted permutation is a faithful
model; insertion sort is used. -/
def managerRetrieve (decayOf : Memory → ℚ) (embed : String → Option (List ℚ))
    (vsearch : List ℚ → Nat → Option (List SearchResultS)) (now : Int)
    (ttl : Int) (st : ManagerState) (query sid : String) (topK : Nat) :
    List Memory × ManagerState :=
  let workingMems := (workingGetAll st.working sid).map (workingCandidate sid)
  let stMems := (shortTermGet st.shortTerm ttl now sid).1
  let newShort := (shortTermGet st.shortTerm ttl now sid).2
  let all := workingMems ++ stMems
  let all :=
    match longTermSearch embed vsearch now st.longTerm query sid topK with
    | some ltMems => all ++ ltMems
    | none => all
  let sorted := List.insertionSort (scoreRel decayOf query) all
  (sorted.take topK, { st with shortTerm := newShort })

/-! ## ContextBuilder (src/internal/memory/manager.go) -/

/-- memory.ContextMessage. -/
structure ContextMessage where
  role : String
  content : String
  tokens : Nat
deriving DecidableEq, Repr

/-- memory.ContextBuilder. -/
structure CtxBuilder where
  maxTokens : Nat
  currentTokens : Nat
  messages : List ContextMessage
deriving DecidableEq, Repr

def newContextBuilder (maxTokens : Nat) : CtxBuilder := ⟨maxTokens, 0, []⟩

/-- Byte length of a Go string (len(text)). -/
def goLen (s : String) : Nat := (gs s).length

/-- Model of ContextBuilder.estimateTokens: int(float64(len(text)) * 0.75).
0.75 is exactly representable and the product is exact for every realistic
length, so the conversion is ⌊3n/4⌋. -/
def estimateTokens (text : String) : Nat := 3 * goLen text / 4

/-- Model of ContextBuilder.summarizeMessages. -/
def summarizeMessages (messages : List ContextMessage) : String :=
  "之前对话包含 " ++ toString messages.length ++ " 条消息"

/-- The synthesized system message compress creates from the messages it
drops. -/
def summaryMessageOf (old : List ContextMessage) : ContextMessage :=
  let summary := summarizeMessages old
  ⟨"system", "历史对话摘要: " ++ summary, estimateTokens summary⟩

/-- Model of ContextBuilder.compress: with 2 messages or fewer do nothing;
with more than 3, replace all but the most recent 3 by the single summary
message and recompute the token count by summing the new list's token
fields; with exactly 3, do nothing. -/
def compress (b : CtxBuilder) : CtxBuilder :=
  if b.messages.length ≤ 2 then b
  else if b.messages.length > 3 then
    let old := b.messages.take (b.messages.length - 3)
    let newMessages := summaryMessageOf old :: b.messages.drop (b.messages.length - 3)
    { b with messages := newMessages,
             currentTokens := (newMessages.map (·.tokens)).sum }
  else b

/-- Model of ContextBuilder.AddMessage: when the estimate would exceed the
budget, compress; if it still would, reject (returning the mutated builder —
compression is not rolled back); otherwise append and add the estimate to
the running count. -/
def addMessage (b : CtxBuilder) (role content : String) : CtxBuilder × Bool :=
  let tokens := estimateTokens content
  let b1 := if b.currentTokens + tokens > b.maxTokens then compress b else b
  if b1.currentTokens + tokens > b1.maxTokens then (b1, false)
  else
    ({ b1 with messages := b1.messages ++ [⟨role, content, tokens⟩],
               currentTokens := b1.currentTokens + tokens }, true)

/-- Fold a sequence of AddMessage calls, keeping the last return flag. -/
def runAdds (b : CtxBuilder) (contents : List String) : CtxBuilder × Bool :=
  contents.foldl (fun acc c => addMessage acc.1 "user" c) (b, true)

/-- A 132-byte message content (99 estimated tokens), used as a concrete
over-budget append. -/
def longContent : String := String.mk (List.replicate 132 'a')

/-- A concrete four-message builder state used as a concrete compression
trigger. -/
def fourMsgBuilder : CtxBuilder :=
  ⟨100, 4, [⟨"user", "ab", 1⟩, ⟨"user", "ab", 1⟩, ⟨"user", "ab", 1⟩, ⟨"user", "ab", 1⟩]⟩

/-! ## Tool execution (XiaovGraph.toolExecutionNode, src/unnamed/part_012) -/

/-- orchestrator.ToolSelection.  Params distinguishes a nil map (`none`)
from an empty one (`some []`), as Go does. -/
structure ToolSelectionM where
  name : GoStr
  params : Option (List (GoStr × Json))
  reason : GoStr
  confidence : ℚ

/-- orchestrator.ToolExecutionResult. -/
structure ToolExecResultM where
  toolName : GoStr
  params : Option (List (GoStr × Json))
  result : Option Json
  error : GoStr
  startTime : Int
  endTime : Int
  durationMs : Int

/-- One iteration of the execution loop: invoke the tool (the MCP call is
the oracle `invoke`, indexed by call position; the wall clock is the oracle
`clock`, read before and after the call), record timestamps, populate either
result or error. -/
def mkToolResult (invoke : Nat → ToolSelectionM → Except GoStr Json)
    (clock : Nat → Int) (i : Nat) (sel : ToolSelectionM) : ToolExecResultM :=
  let s := clock (2 * i)
  let e := clock (2 * i + 1)
  match invoke i sel with
  | .ok r => ⟨sel.name, sel.params, some r, [], s, e, Int.tdiv (e - s) 1000000⟩
  | .error msg => ⟨sel.name, sel.params, none, msg, s, e, Int.tdiv (e - s) 1000000⟩

/-- The execution loop over the selections, threading the call index. -/
def execGo (invoke : Nat → ToolSelectionM → Except GoStr Json)
    (clock : Nat → Int) : Nat → List ToolSelectionM → List ToolExecResultM
  | _, [] => []
  | i, sel :: rest => mkToolResult invoke clock i sel :: execGo invoke clock (i + 1) rest

/-- The loop body of XiaovGraph.toolExecutionNode: one result per selection,
in order, regardless of per-tool failures. -/
def executeSelections (invoke : Nat → ToolSelectionM → Except GoStr Json)
    (clock : Nat → Int) (sels : List ToolSelectionM) : List ToolExecResultM :=
  execGo invoke clock 0 sels

/-- The node including its skip guard: a general-chat intent or an empty
selection list leaves the state's results untouched (`none` = skipped). -/
def toolExecutionStage (intent : String)
    (invoke : Nat → ToolSelectionM → Except GoStr Json) (clock : Nat → Int)
    (sels : List ToolSelectionM) : Option (List ToolExecResultM) :=
  if intent = intentGeneralChat ∨ sels.isEmpty = true then none
  else some (executeSelections invoke clock sels)

/-! ## Tool-selection parsing and repair (XiaovGraph, src/unnamed/part_012) -/

/-- The per-selection repair loop of parseToolSelectionResponse: a nil
params map is replaced by an empty one; a value under the placeholder key
参数值 is moved to the key video_id.  Nothing else is repaired, and no
catalog check happens here or anywhere downstream. -/
def repairOne (t : ToolSelectionM) : ToolSelectionM :=
  let params := t.params.getD []
  match jlookup params (gs "参数值") with
  | some v => { t with params := some (removeKey (setKey params (gs "video_id") v) (gs "参数值")) }
  | none => { t with params := some params }

def repairSelections (tools : List ToolSelectionM) : List ToolSelectionM :=
  tools.map repairOne

/-- json.Unmarshal of one element of the tools array into the Go
ToolSelection struct: unknown fields are ignored, missing fields keep their
zero value, null leaves the zero value, a type mismatch fails the whole
unmarshal. -/
def decodeToolSelection (j : Json) : Option ToolSelectionM :=
  match j with
  | .obj fields => do
    let name ← match jlookup fields (gs "name") with
      | some (.str s) => some s
      | some .null | none => some []
      | some _ => none
    let params ← match jlookup fields (gs "params") with
      | some (.obj f) => some (some f)
      | some .null | none => some none
      | some _ => none
    let reason ← match jlookup fields (gs "reason") with
      | some (.str s) => some s
      | some .null | none => some []
      | some _ => none
    let confidence ← match jlookup fields (gs "confidence") with
      | some (.num q) => some q
      | some .null | none => some 0
      | some _ => none
    some ⟨name, params, reason, confidence⟩
  | _ => none

def decodeToolSelections : List Json → Option (List ToolSelectionM)
  | [] => some []
  | j :: rest => do
    let t ← decodeToolSelection j
    let ts ← decodeToolSelections rest
    some (t :: ts)

/-- Model of XiaovGraph.parseToolSelectionResponse: cut the text between the
first opening and last closing brace, unmarshal it as an object with a tools
array, repair each selection.  Selections naming tools that are not in the
catalog are NOT dropped — the catalog is never consulted. -/
def parseToolSelectionResponse (content : GoStr) :
    Except GoStr (List ToolSelectionM) :=
  match content.findIdx? (· = 123), lastIndexOfByte content 125 with
  | some si, some ei =>
    if ei ≤ si then .error (gs "无法找到JSON内容")
    else
      let jsonStr := sliceL content si (ei + 1)
      match unmarshalObject jsonStr with
      | none => .error (gs "解析工具选择JSON失败")
      | some fields =>
        match jlookup fields (gs "tools") with
        | none => .ok (repairSelections [])
        | some .null => .ok (repairSelections [])
        | some (.arr elems) =>
          match decodeToolSelections elems with
          | some ts => .ok (repairSelections ts)
          | none => .error (gs "解析工具选择JSON失败")
        | some _ => .error (gs "解析工具选择JSON失败")
  | _, _ => .error (gs "无法找到JSON内容")

/-- The selection half of XiaovGraph.toolSelectionNode after the LM call:
on LM failure (`none`) or a parse error, the previous selections stand and
the error is recorded in metadata (Bool); on success the parsed selections
replace them.  `catalog` is the discovered tool list — it feeds only the
prompt, never a validity filter, so it is unused here exactly as in the
source. -/
def toolSelectionStage (catalog : List GoStr) (llmResponse : Option GoStr)
    (prevSelected : List ToolSelectionM) : List ToolSelectionM × Bool :=
  match llmResponse with
  | none => (prevSelected, true)
  | some content =>
    match parseToolSelectionResponse content with
    | .ok ts => (ts, false)
    | .error _ => (prevSelected, true)

/-- Concrete first tool selection for the execution-loop instance. -/
def c6SelA : ToolSelectionM := ⟨gs "get_video_info", some [], gs "r1", 1⟩

/-- Concrete second tool selection for the execution-loop instance. -/
def c6SelB : ToolSelectionM := ⟨gs "get_video_comments", some [], gs "r2", 1⟩

/-- Concrete tool-invocation oracle: the first call succeeds, the second
fails. -/
def c6Invoke : Nat → ToolSelectionM → Except GoStr Json :=
  fun i _ => if i = 0 then .ok (.str (gs "ok")) else .error (gs "boom")

/-- Concrete clock oracle. -/
def c6Clock : Nat → Int := fun t => 100 + t

/-- A concrete long-term memory promoted earlier with importance 0.9. -/
def mPromoted : Memory := ⟨"id1", "s", "short_term", "c", [1], 9/10, 1, 0, 0, 0⟩

/-- A concrete manager state holding short-term, working and long-term data
for session s (and short-term data for session t). -/
def c9St : ManagerState :=
  ⟨[("s", [mFresh]), ("t", [mOld])], [("s", [("k", "v")])],
   ⟨[("id1", [1])], [mPromoted]⟩⟩

/-- A concrete high-importance short-term memory whose content matches the
query q exactly (relevance 1, score 1). -/
def mScored : Memory := ⟨"hit", "s", "short_term", "q", [], 1, 0, 0, 0, 0⟩

/-- A concrete manager state for the retrieval instance: one working entry
and one exact-match short-term entry for session s. -/
def c10St : ManagerState :=
  ⟨[("s", [mScored])], [("s", [("k1", "hello")])], ⟨[], []⟩⟩

/-- A model response selecting a tool that is not in the catalog. -/
def ghostContent : GoStr :=
  gs "\x7b\"tools\":[\x7b\"name\":\"ghost\",\"params\":\x7b\x7d,\"reason\":\"r\",\"confidence\":0.9\x7d]\x7d"

/-- A concrete selection whose params use the placeholder key 参数值. -/
def c7Sel : ToolSelectionM :=
  ⟨gs "get_video_info", some [(gs "参数值", .str (gs "BV1"))], gs "r", 1⟩

/-! ## General chat (two handlers, both cited by the spec) -/

/-- The fixed fallback reply of XiaovGraph.generateGeneralChatResponse
(src/unnamed/part_012). -/
def generalChatFallback : String := "抱歉，我暂时无法处理您的请求，请稍后再试。"

/-- Model of XiaovGraph.generateGeneralChatResponse: the LM outcome for the
built prompt is the oracle `llm`; on failure the function returns the fixed
fallback reply and a nil error. -/
def generateGeneralChatResponse (llm : Except String String) :
    String × Option String :=
  match llm with
  | .ok content => (content, none)
  | .error _ => (generalChatFallback, none)

/-- The fixed fallback reply of XiaovGraph.handleGeneralChat
(src/internal/orchestrator/xiaov_graph.go). -/
def handleGeneralChatFallback : String := "抱歉，我暂时无法回答，请稍后再试。"

/-- Model of the reply selection of XiaovGraph.handleGeneralChat: this
variant returns only a string, so an LM failure cannot even be reported —
the fixed fallback reply is returned. -/
def handleGeneralChatReply (llm : Except String String) : String :=
  match llm with
  | .ok content => content
  | .error _ => handleGeneralChatFallback

/-! ## Helper lemmas -/

theorem toInt_intCast (v : ℤ) : toInt (.num (v : ℚ)) = v := by
  simp [toInt, goTrunc]

theorem lookupA_setA_self {α : Type} (l : List (String × α)) (k : String)
    (v : α) : lookupA (setA l k v) k = some v := by
  induction l with
  | nil => simp [setA, lookupA]
  | cons p rest ih =>
    by_cases h : p.1 = k
    · simp [setA, h, lookupA]
    · simp [setA, h, lookupA, ih]

theorem lookupA_removeA_self {α : Type} (l : List (String × α)) (k : String) :
    lookupA (removeA l k) k = none := by
  induction l with
  | nil => simp [removeA, lookupA]
  | cons p rest ih =>
    rcases p with ⟨k1, v1⟩
    by_cases h : k1 = k
    · simpa [removeA, h] using ih
    · simp [removeA, h, lookupA, ih]

theorem lookupA_removeA_ne {α : Type} (l : List (String × α)) (k k2 : String)
    (h : k2 ≠ k) : lookupA (removeA l k) k2 = lookupA l k2 := by
  induction l with
  | nil => simp [removeA, lookupA]
  | cons p rest ih =>
    rcases p with ⟨k1, v1⟩
    have hs : k ≠ k2 := Ne.symm h
    by_cases hp : k1 = k
    · have hne : k1 ≠ k2 := by rw [hp]; exact hs
      simp [removeA, hp, lookupA, hne, ih, hs]
    · by_cases hq : k1 = k2 <;> simp [removeA, hp, hq, lookupA, ih, h]

/-! ## Claim C1 -/

/-- C1, counterexample.  The claim asserts a final fallback to top-level
fields: a payload that is the JSON object with a top-level view_count of
12345 and no data / video nesting should then yield view_count 12345.  The
extractor yields 0: no top-level-direct fallback exists in the code. -/
theorem extract_topLevel_counterexample :
    (extractVideoDataFromToolResults [gs "\x7b\"view_count\":12345\x7d"]).view_count = 0 ∧
    (0 : Int) ≠ 12345 :=
  ⟨by decide, by decide⟩

/-- C1, amended.  For string / byte-blob payloads the extractor parses the
payload as JSON; a nonempty content array whose first element carries a
string text field makes the base64-decoded, reparsed text the effective
payload (concrete round-trip: the spec's base64 example yields exactly
12345); canonical fields come from a data.video nesting first, falling back
to a top-level video object only — with no further fallback to top-level
direct fields, and with the author lookup performed only on the data.video
path.  Numeric coercion is exact for safe-range integers. -/
theorem extractVideoData_spec (acc : VideoData) (v : Int)
    (hv : v.natAbs ≤ 2 ^ 53) :
    (extractVideoDataFromToolResults [roundTripPayload]).view_count = 12345 ∧
    (extractFromOuter acc
      [(gs "data", .obj [(gs "video", .obj [(gs "view_count", .num (v : ℚ))])])]).view_count = v ∧
    (extractFromOuter acc
      [(gs "video", .obj [(gs "view_count", .num (v : ℚ))])]).view_count = v ∧
    (extractFromOuter acc
      [(gs "data", .obj [(gs "video",
        .obj [(gs "author", .obj [(gs "username", .str (gs "up主"))])])])]).author = gs "up主" ∧
    (extractFromOuter acc
      [(gs "video", .obj [(gs "author", .obj [(gs "username", .str (gs "up主"))])])]).author
      = acc.author := by
  refine ⟨by with_unfolding_all decide, ?_, ?_, ?_, ?_⟩
  · simp +decide [extractFromOuter, effectiveDataMap, jlookup, applyVideoFields,
      toInt_intCast]
  · simp +decide [extractFromOuter, effectiveDataMap, jlookup, applyVideoFields,
      toInt_intCast]
  · simp +decide [extractFromOuter, effectiveDataMap, jlookup, applyVideoFields,
      goToString]
  · simp +decide [extractFromOuter, effectiveDataMap, jlookup, applyVideoFields]

/-- C1 witness: the amended theorem applied at a concrete accumulator and a
concrete safe-range integer. -/
theorem extractVideoData_spec_witness :
    (98765 : Int).natAbs ≤ 2 ^ 53 ∧
    ((extractVideoDataFromToolResults [roundTripPayload]).view_count = 12345 ∧
     (extractFromOuter initVideoData
       [(gs "data", .obj [(gs "video", .obj [(gs "view_count", .num ((98765 : Int) : ℚ))])])]).view_count = 98765 ∧
     (extractFromOuter initVideoData
       [(gs "video", .obj [(gs "view_count", .num ((98765 : Int) : ℚ))])]).view_count = 98765 ∧
     (extractFromOuter initVideoData
       [(gs "data", .obj [(gs "video",
         .obj [(gs "author", .obj [(gs "username", .str (gs "up主"))])])])]).author = gs "up主" ∧
     (extractFromOuter initVideoData
       [(gs "video", .obj [(gs "author", .obj [(gs "username", .str (gs "up主"))])])]).author
       = initVideoData.author) :=
  ⟨by decide, extractVideoData_spec initVideoData 98765 (by decide)⟩

/-! ## Claim C2 -/

theorem fixupMemory_mtype (genId : String) (now : Int) (m : Memory) :
    (fixupMemory genId now m).mtype = m.mtype := by
  unfold fixupMemory; dsimp only; split_ifs <;> rfl

theorem fixupMemory_importance (genId : String) (now : Int) (m : Memory) :
    (fixupMemory genId now m).importance = m.importance := by
  unfold fixupMemory; dsimp only; split_ifs <;> rfl

/-- C2, counterexample.  The claim covers every memory type, working
included: a working-typed memory of importance 0.9 (> 0.7) stored into the
empty manager state leaves the long-term store empty — working memories
return early and are never promoted. -/
theorem managerStore_working_counterexample :
    ((managerStore (fun _ => some [1]) 100 100 "gen" 5
        ⟨[], [], ⟨[], []⟩⟩
        ⟨"m1", "s", "working", "c", [], 9/10, 1, 0, 0, 0⟩).1.longTerm.meta = []) ∧
    (9/10 : ℚ) > 7/10 :=
  ⟨by with_unfolding_all decide, by with_unfolding_all decide⟩

/-- C2, amended.  For every non-working memory, Store writes to the
long-term tier exactly when importance > 0.7 (the write appends the
embedded memory to the long-term metadata store, making it retrievable);
working-typed memories go only to the working scratchpad and never reach
the long-term or short-term tiers, regardless of importance. -/
theorem managerStore_promotion_spec (embed : String → Option (List ℚ))
    (maxItems maxSize : Nat) (genId : String) (now : Int) (st : ManagerState)
    (m : Memory) :
    (m.mtype = memoryTypeWorking →
      (managerStore embed maxItems maxSize genId now st m).1.longTerm = st.longTerm ∧
      (managerStore embed maxItems maxSize genId now st m).1.shortTerm = st.shortTerm ∧
      (managerStore embed maxItems maxSize genId now st m).2 = none) ∧
    (m.mtype ≠ memoryTypeWorking → ¬ (7/10 < m.importance) →
      (managerStore embed maxItems maxSize genId now st m).1.longTerm = st.longTerm ∧
      (managerStore embed maxItems maxSize genId now st m).2 = none) ∧
    (m.mtype ≠ memoryTypeWorking → 7/10 < m.importance →
      ∀ em, embedOf embed (fixupMemory genId now m) = some em →
        (managerStore embed maxItems maxSize genId now st m).1.longTerm.meta
          = st.longTerm.meta ++ [em] ∧
        em ∈ (managerStore embed maxItems maxSize genId now st m).1.longTerm.meta ∧
        (managerStore embed maxItems maxSize genId now st m).2 = none) := by
  refine ⟨fun hw => ?_, fun hw hi => ?_, fun hw hi em hem => ?_⟩
  · simp [managerStore, fixupMemory_mtype, hw]
  · simp [managerStore, fixupMemory_mtype, fixupMemory_importance, hw, hi]
  · simp only [managerStore, fixupMemory_mtype, fixupMemory_importance, hw,
      if_neg hw, if_pos hi, longTermStore, hem, Option.map_some]
    simp [hem, longTermStore]

/-- C2 witness: the amended theorem applied to a short-term memory of
importance 0.71 (promoted: appended to the long-term metadata) and one of
importance 0.69 (long-term tier untouched). -/
theorem managerStore_promotion_spec_witness :
    ("short_term" : String) ≠ memoryTypeWorking ∧ (7/10 : ℚ) < 71/100 ∧
    ((managerStore (fun _ => some [1]) 100 100 "gen" 5 ⟨[], [], ⟨[], []⟩⟩
        ⟨"m2", "s", "short_term", "c", [], 71/100, 3, 0, 0, 0⟩).1.longTerm.meta
      = [] ++ [⟨"m2", "s", "short_term", "c", [1], 71/100, 3, 0, 0, 0⟩] ∧
     ⟨"m2", "s", "short_term", "c", [1], 71/100, 3, 0, 0, 0⟩ ∈
       (managerStore (fun _ => some [1]) 100 100 "gen" 5 ⟨[], [], ⟨[], []⟩⟩
        ⟨"m2", "s", "short_term", "c", [], 71/100, 3, 0, 0, 0⟩).1.longTerm.meta ∧
     (managerStore (fun _ => some [1]) 100 100 "gen" 5 ⟨[], [], ⟨[], []⟩⟩
        ⟨"m2", "s", "short_term", "c", [], 71/100, 3, 0, 0, 0⟩).2 = none) ∧
    ((managerStore (fun _ => some [1]) 100 100 "gen" 5 ⟨[], [], ⟨[], []⟩⟩
        ⟨"m3", "s", "short_term", "c", [], 69/100, 3, 0, 0, 0⟩).1.longTerm
      = (⟨[], []⟩ : LongTermState) ∧
     (managerStore (fun _ => some [1]) 100 100 "gen" 5 ⟨[], [], ⟨[], []⟩⟩
        ⟨"m3", "s", "short_term", "c", [], 69/100, 3, 0, 0, 0⟩).2 = none) :=
  ⟨by decide, by with_unfolding_all decide,
   (managerStore_promotion_spec (fun _ => some [1]) 100 100 "gen" 5
      ⟨[], [], ⟨[], []⟩⟩ ⟨"m2", "s", "short_term", "c", [], 71/100, 3, 0, 0, 0⟩).2.2
     (by decide) (by with_unfolding_all decide)
     ⟨"m2", "s", "short_term", "c", [1], 71/100, 3, 0, 0, 0⟩
     (by with_unfolding_all decide),
   (managerStore_promotion_spec (fun _ => some [1]) 100 100 "gen" 5
      ⟨[], [], ⟨[], []⟩⟩ ⟨"m3", "s", "short_term", "c", [], 69/100, 3, 0, 0, 0⟩).2.1
     (by decide) (by with_unfolding_all decide)⟩

/-! ## Claim C3 -/

theorem compress_maxTokens (b : CtxBuilder) :
    (compress b).maxTokens = b.maxTokens := by
  unfold compress; split_ifs <;> rfl

/-- C3, counterexample.  maxTokens = 10; four accepted one-token messages,
then a ten-token append.  The append triggers compression, compression
replaces the oldest message by a 22-token summary, the recomputed total is
25, the append is rejected — and the retained context now stands at 25
tokens, above the 10-token budget: the accepted context has silently
overflowed the budget through compression. -/
theorem addMessage_overflow_counterexample :
    (runAdds (newContextBuilder 10) ["ab", "ab", "ab", "ab", "aaaaaaaaaaaaaa"]).2 = false ∧
    (runAdds (newContextBuilder 10) ["ab", "ab", "ab", "ab", "aaaaaaaaaaaaaa"]).1.currentTokens = 25 ∧
    (runAdds (newContextBuilder 10) ["ab", "ab", "ab", "ab", "aaaaaaaaaaaaaa"]).1.maxTokens = 10 ∧
    25 > 10 :=
  ⟨by decide, by decide, by decide, by decide⟩

/-- C3, amended.  When an append would exceed the budget and more than 3
messages are present, compression replaces all but the most recent 3 with
exactly one synthesized system summary message and recomputes the token
count over the new list; if the budget would still be exceeded the append
returns false and the message is not appended (the compressed message list
is kept); an accepted append always leaves the running count within the
budget — but a rejected one may leave the compressed context itself above
the budget, as the counterexample shows. -/
theorem addMessage_compress_spec (b : CtxBuilder) (role content : String)
    (htrig : b.currentTokens + estimateTokens content > b.maxTokens)
    (hlen : 3 < b.messages.length) :
    (compress b).messages =
      summaryMessageOf (b.messages.take (b.messages.length - 3))
        :: b.messages.drop (b.messages.length - 3) ∧
    (compress b).messages.length = 4 ∧
    (compress b).currentTokens = ((compress b).messages.map (·.tokens)).sum ∧
    ((compress b).currentTokens + estimateTokens content > b.maxTokens →
      addMessage b role content = (compress b, false)) ∧
    ((compress b).currentTokens + estimateTokens content ≤ b.maxTokens →
      (addMessage b role content).2 = true ∧
      (addMessage b role content).1.currentTokens ≤ b.maxTokens) := by
  have hc : compress b =
      { b with
        messages := summaryMessageOf (b.messages.take (b.messages.length - 3))
          :: b.messages.drop (b.messages.length - 3),
        currentTokens :=
          ((summaryMessageOf (b.messages.take (b.messages.length - 3))
            :: b.messages.drop (b.messages.length - 3)).map (·.tokens)).sum } := by
    unfold compress
    rw [if_neg (by omega), if_pos hlen]
  refine ⟨by rw [hc], ?_, by rw [hc], fun hover => ?_, fun hfit => ?_⟩
  · rw [hc]
    simp only [List.length_cons, List.length_drop]
    omega
  · unfold addMessage
    dsimp only
    rw [if_pos htrig, if_pos (by rw [compress_maxTokens]; exact hover)]
  · unfold addMessage
    dsimp only
    rw [if_pos htrig, if_neg (by rw [compress_maxTokens]; omega)]
    exact ⟨rfl, by simpa [compress_maxTokens] using hfit⟩

/-- C3 witness: a four-message builder over budget; after compression the
append still does not fit, so it is rejected with the compressed list
kept. -/
theorem addMessage_compress_spec_witness :
    fourMsgBuilder.currentTokens + estimateTokens longContent > fourMsgBuilder.maxTokens ∧
    3 < fourMsgBuilder.messages.length ∧
    (compress fourMsgBuilder).messages.length = 4 ∧
    addMessage fourMsgBuilder "user" longContent = (compress fourMsgBuilder, false) := by
  refine ⟨by decide, by decide, ?_, ?_⟩
  · exact (addMessage_compress_spec fourMsgBuilder "user" longContent
      (by decide) (by decide)).2.1
  · exact (addMessage_compress_spec fourMsgBuilder "user" longContent
      (by decide) (by decide)).2.2.2.1 (by decide)

/-! ## Claim C4 -/

/-- C4, confirmed.  When the parsed model response carries confidence below
the 0.7 acceptance threshold and the rule-based classifier (which returns —
its entity-extraction slice panic aside, which leaves no rule-based result
to compare at all) has strictly higher confidence, Recognize returns the
rule-based result, so the final intent type is the rule-based type. -/
theorem recognize_rule_fallback (query : GoStr) (mi ruleIntent : Intent)
    (hrule : ruleBasedClassify query = .ok ruleIntent)
    (hconf : mi.confidence < 7/10)
    (hgt : ruleIntent.confidence > mi.confidence) :
    recognize (some mi) query = .ok ruleIntent ∧
    ∀ r, recognize (some mi) query = .ok r → r.itype = ruleIntent.itype := by
  have h1 : recognize (some mi) query = .ok ruleIntent := by
    unfold recognize
    dsimp only
    rw [if_pos (show mi.confidence < 7/10 from hconf), hrule]
    dsimp only
    rw [if_pos hgt]
  exact ⟨h1, fun r hr => by rw [h1] at hr; cases hr; rfl⟩

/-- C4 witness: the utterance 推荐一个视频 rule-classifies to recommendation
with confidence 0.8; a parsed model intent of confidence 0.3 loses to it. -/
theorem recognize_rule_fallback_witness :
    ruleBasedClassify (gs "推荐一个视频")
      = .ok ⟨intentRecommendation, 8/10, gs "推荐一个视频", []⟩ ∧
    (⟨intentKnowledgeQA, 3/10, [], []⟩ : Intent).confidence < 7/10 ∧
    ((⟨intentRecommendation, 8/10, gs "推荐一个视频", []⟩ : Intent).confidence
      > (⟨intentKnowledgeQA, 3/10, [], []⟩ : Intent).confidence) ∧
    recognize (some ⟨intentKnowledgeQA, 3/10, [], []⟩) (gs "推荐一个视频")
      = .ok ⟨intentRecommendation, 8/10, gs "推荐一个视频", []⟩ :=
  ⟨by with_unfolding_all decide, by with_unfolding_all decide,
   by with_unfolding_all decide,
   (recognize_rule_fallback (gs "推荐一个视频")
      ⟨intentKnowledgeQA, 3/10, [], []⟩
      ⟨intentRecommendation, 8/10, gs "推荐一个视频", []⟩
      (by with_unfolding_all decide) (by with_unfolding_all decide)
      (by with_unfolding_all decide)).1⟩

/-! ## Claim C5 -/

/-- C5, counterexample.  An entry whose age equals the TTL exactly has not
exceeded the TTL, yet Get excludes it: the code keeps age < TTL, the claim
says entries whose age does not exceed the TTL are retained. -/
theorem shortTermGet_boundary_counterexample :
    (shortTermGet [("s", [⟨"m1", "s", "short_term", "c", [], 0, 0, 0, 0, 0⟩])]
        1000000000 1000000000 "s").1 = [] ∧
    ¬ ((1000000000 : Int) - 0 > 1000000000) :=
  ⟨by with_unfolding_all decide, by decide⟩

/-- C5, amended.  Get returns exactly the session's entries of age
strictly below the TTL (so with ttl = 1s an entry stored at 0 and fetched
at 1.1s is excluded), rewrites the backing list to that filtered list, and
excludes every entry of age ≥ TTL — including age = TTL exactly. -/
theorem shortTermGet_expiry_spec (store : List (String × List Memory))
    (ttl now : Int) (sid : String) (memories : List Memory)
    (h : lookupA store sid = some memories) :
    (∀ m, m ∈ (shortTermGet store ttl now sid).1 ↔
       m ∈ memories ∧ now - m.createdAt < ttl) ∧
    lookupA (shortTermGet store ttl now sid).2 sid
      = some (shortTermGet store ttl now sid).1 ∧
    (∀ m, m ∈ memories → ttl ≤ now - m.createdAt →
       m ∉ (shortTermGet store ttl now sid).1) := by
  unfold shortTermGet
  rw [h]
  dsimp only
  refine ⟨fun m => ?_, lookupA_setA_self _ _ _, fun m hm hage hmem => ?_⟩
  · simp [List.mem_filter]
  · simp only [List.mem_filter, decide_eq_true_eq] at hmem
    omega

/-- C5 witness: with ttl = 1s, fetching at 1.1s drops the entry stored at 0
and keeps the one stored at 1s. -/
theorem shortTermGet_expiry_spec_witness :
    lookupA [("s", [mOld, mFresh])] "s" = some [mOld, mFresh] ∧
    mOld ∈ [mOld, mFresh] ∧ (1000000000 : Int) ≤ 1100000000 - mOld.createdAt ∧
    mOld ∉ (shortTermGet [("s", [mOld, mFresh])] 1000000000 1100000000 "s").1 ∧
    mFresh ∈ (shortTermGet [("s", [mOld, mFresh])] 1000000000 1100000000 "s").1 :=
  ⟨by decide, by decide, by decide,
   (shortTermGet_expiry_spec [("s", [mOld, mFresh])] 1000000000 1100000000 "s"
      [mOld, mFresh] (by decide)).2.2 mOld (by decide) (by decide),
   ((shortTermGet_expiry_spec [("s", [mOld, mFresh])] 1000000000 1100000000 "s"
      [mOld, mFresh] (by decide)).1 mFresh).mpr ⟨by decide, by decide⟩⟩

/-! ## Claim C6 -/

theorem execGo_length (invoke : Nat → ToolSelectionM → Except GoStr Json)
    (clock : Nat → Int) :
    ∀ (k : Nat) (sels : List ToolSelectionM),
      (execGo invoke clock k sels).length = sels.length
  | _, [] => rfl
  | k, _ :: rest => by
    simp [execGo, execGo_length invoke clock (k + 1) rest]

theorem execGo_get? (invoke : Nat → ToolSelectionM → Except GoStr Json)
    (clock : Nat → Int) (sels : List ToolSelectionM) :
    ∀ (k i : Nat) (sel : ToolSelectionM), sels.get? i = some sel →
      (execGo invoke clock k sels).get? i
        = some (mkToolResult invoke clock (k + i) sel) := by
  induction sels with
  | nil => intro k i sel h; simp at h
  | cons s rest ih =>
    intro k i sel h
    cases i with
    | zero =>
      simp only [List.get?_cons_zero, Option.some.injEq] at h
      subst h
      simp [execGo]
    | succ n =>
      simp only [List.get?_cons_succ] at h
      have := ih (k + 1) n sel h
      simpa [execGo, Nat.add_assoc, Nat.add_comm 1 n] using this

/-- C6, confirmed.  The execution loop yields exactly one result per
selection, in order: the i-th result carries the i-th selection's name and
params, the start and end clock readings around its call, an empty error and
the payload on success, the error message and no payload on failure — and
every index is present regardless of earlier failures.  With a non-general-
chat intent and a nonempty selection list, the node runs exactly this
loop. -/
theorem executeSelections_spec
    (invoke : Nat → ToolSelectionM → Except GoStr Json) (clock : Nat → Int)
    (sels : List ToolSelectionM) (intent : String) :
    (executeSelections invoke clock sels).length = sels.length ∧
    (∀ i sel, sels.get? i = some sel →
      ∃ res, (executeSelections invoke clock sels).get? i = some res ∧
        res.toolName = sel.name ∧ res.params = sel.params ∧
        res.startTime = clock (2 * i) ∧ res.endTime = clock (2 * i + 1) ∧
        (∀ r, invoke i sel = .ok r → res.error = [] ∧ res.result = some r) ∧
        (∀ msg, invoke i sel = .error msg → res.error = msg ∧ res.result = none)) ∧
    (intent ≠ intentGeneralChat → sels.isEmpty = false →
      toolExecutionStage intent invoke clock sels
        = some (executeSelections invoke clock sels)) := by
  refine ⟨execGo_length invoke clock 0 sels, fun i sel h => ?_, fun h1 h2 => ?_⟩
  · refine ⟨mkToolResult invoke clock i sel, ?_, ?_⟩
    · simpa using execGo_get? invoke clock sels 0 i sel h
    · cases hinv : invoke i sel <;> simp [mkToolResult, hinv]
  · simp [toolExecutionStage, h1, h2]

/-- C6 witness: two selections, the second of which fails; both results are
present in order, the failing one with its error populated. -/
theorem executeSelections_spec_witness :
    [c6SelA, c6SelB].get? 1 = some c6SelB ∧
    (∃ res, (executeSelections c6Invoke c6Clock [c6SelA, c6SelB]).get? 1 = some res ∧
      res.toolName = c6SelB.name ∧ res.params = c6SelB.params ∧
      res.startTime = c6Clock 2 ∧ res.endTime = c6Clock 3 ∧
      (∀ r, c6Invoke 1 c6SelB = .ok r → res.error = [] ∧ res.result = some r) ∧
      (∀ msg, c6Invoke 1 c6SelB = .error msg → res.error = msg ∧ res.result = none)) ∧
    (executeSelections c6Invoke c6Clock [c6SelA, c6SelB]).length = 2 ∧
    toolExecutionStage "video_analysis" c6Invoke c6Clock [c6SelA, c6SelB]
      = some (executeSelections c6Invoke c6Clock [c6SelA, c6SelB]) :=
  ⟨rfl,
   (executeSelections_spec c6Invoke c6Clock [c6SelA, c6SelB] "video_analysis").2.1
     1 c6SelB rfl,
   (executeSelections_spec c6Invoke c6Clock [c6SelA, c6SelB] "video_analysis").1,
   (executeSelections_spec c6Invoke c6Clock [c6SelA, c6SelB] "video_analysis").2.2
     (by decide) rfl⟩

/-! ## Claim C7 -/

theorem jlookup_setKey_self (l : List (GoStr × Json)) (k : GoStr) (v : Json) :
    jlookup (setKey l k v) k = some v := by
  induction l with
  | nil => simp [setKey, jlookup]
  | cons p rest ih =>
    rcases p with ⟨k1, v1⟩
    by_cases h : k1 = k
    · simp [setKey, h, jlookup]
    · simp [setKey, h, jlookup, ih]

theorem jlookup_removeKey_self (l : List (GoStr × Json)) (k : GoStr) :
    jlookup (removeKey l k) k = none := by
  induction l with
  | nil => simp [removeKey, jlookup]
  | cons p rest ih =>
    rcases p with ⟨k1, v1⟩
    by_cases h : k1 = k
    · simpa [removeKey, h] using ih
    · simp [removeKey, h, jlookup, ih]

theorem jlookup_removeKey_ne (l : List (GoStr × Json)) (k k2 : GoStr)
    (h : k2 ≠ k) : jlookup (removeKey l k) k2 = jlookup l k2 := by
  induction l with
  | nil => simp [removeKey, jlookup]
  | cons p rest ih =>
    rcases p with ⟨k1, v1⟩
    have hs : k ≠ k2 := Ne.symm h
    by_cases hp : k1 = k
    · have hne : k1 ≠ k2 := by rw [hp]; exact hs
      simp [removeKey, hp, jlookup, hne, ih, hs]
    · by_cases hq : k1 = k2 <;> simp [removeKey, hp, hq, jlookup, ih, h]

theorem repairOne_name (t : ToolSelectionM) : (repairOne t).name = t.name := by
  unfold repairOne
  dsimp only
  cases h : jlookup (t.params.getD []) (gs "参数值") <;> simp [h]

theorem repairOne_params_some (t : ToolSelectionM) :
    (repairOne t).params ≠ none := by
  unfold repairOne
  dsimp only
  cases h : jlookup (t.params.getD []) (gs "参数值") <;> simp [h]

/-- C7, counterexample.  With the catalog containing only get_video_info,
a model response selecting the absent tool ghost is parsed and kept: the
returned selection list still names ghost, refuting 'any selection naming a
tool absent from the catalog is dropped'. -/
theorem toolSelection_nodrop_counterexample :
    ((toolSelectionStage [gs "get_video_info"] (some ghostContent) []).1.map
        (fun t => t.name) = [gs "ghost"]) ∧
    (gs "ghost") ∉ [gs "get_video_info"] :=
  ⟨by with_unfolding_all decide, by decide⟩

/-- C7, amended.  The defensive repair replaces a nil params map with an
empty one and remaps the one literal placeholder key 参数值 to the schema
key video_id; tool names are never changed and no selection is dropped —
in particular the catalog is not consulted, so selections naming unknown
tools are returned as-is. -/
theorem toolSelection_repair_spec (ts : List ToolSelectionM) :
    ((repairSelections ts).map (fun t => t.name) = ts.map (fun t => t.name)) ∧
    (∀ t : ToolSelectionM, (repairOne t).params ≠ none) ∧
    (∀ (t : ToolSelectionM) (params : List (GoStr × Json)) (v : Json),
      t.params = some params →
      jlookup params (gs "参数值") = some v →
      jlookup ((repairOne t).params.getD []) (gs "video_id") = some v ∧
      jlookup ((repairOne t).params.getD []) (gs "参数值") = none) := by
  refine ⟨?_, repairOne_params_some, fun t params v hp hv => ?_⟩
  · unfold repairSelections
    rw [List.map_map]
    exact List.map_congr_left fun t _ => repairOne_name t
  · unfold repairOne
    rw [hp]
    simp only [Option.getD_some, hv, Option.getD_some]
    constructor
    · rw [jlookup_removeKey_ne _ _ _ (by decide), jlookup_setKey_self]
    · exact jlookup_removeKey_self _ _

/-- C7 witness: a selection whose params carry the placeholder key 参数值
is repaired to carry video_id instead, with its name untouched. -/
theorem toolSelection_repair_spec_witness :
    c7Sel.params = some [(gs "参数值", Json.str (gs "BV1"))] ∧
    jlookup [(gs "参数值", Json.str (gs "BV1"))] (gs "参数值")
      = some (.str (gs "BV1")) ∧
    ((repairSelections [c7Sel]).map (fun t => t.name)
      = [c7Sel].map (fun t => t.name)) ∧
    jlookup ((repairOne c7Sel).params.getD []) (gs "video_id")
      = some (.str (gs "BV1")) ∧
    jlookup ((repairOne c7Sel).params.getD []) (gs "参数值") = none :=
  ⟨rfl, by rfl, (toolSelection_repair_spec [c7Sel]).1,
   ((toolSelection_repair_spec [c7Sel]).2.2 c7Sel
      [(gs "参数值", Json.str (gs "BV1"))] (.str (gs "BV1")) rfl (by rfl)).1,
   ((toolSelection_repair_spec [c7Sel]).2.2 c7Sel
      [(gs "参数值", Json.str (gs "BV1"))] (.str (gs "BV1")) rfl (by rfl)).2⟩

/-! ## Claim C8 -/

/-- C8, counterexample.  On a total LM failure for a general-chat turn the
handler returns the fixed apology reply with a nil error: a fallback text
source does exist, and no typed service error is surfaced — refuting both
halves of the claim at this concrete input. -/
theorem generalChat_error_counterexample :
    generateGeneralChatResponse (.error "LM unreachable")
      = (generalChatFallback, none) ∧
    generalChatFallback ≠ "" :=
  ⟨rfl, by decide⟩

/-- C8, amended.  Both general-chat handlers never surface an error: the
graph variant returns (fallback reply, nil error) on LM failure and
(content, nil error) on success; the branching variant, which cannot even
return an error, returns the fixed fallback string on failure.  A
general-chat turn therefore always produces a reply and never an explicit
error response. -/
theorem generalChat_fallback_spec (llm : Except String String) :
    (generateGeneralChatResponse llm).2 = none ∧
    (∀ e, llm = .error e →
      (generateGeneralChatResponse llm).1 = generalChatFallback ∧
      handleGeneralChatReply llm = handleGeneralChatFallback) ∧
    (∀ c, llm = .ok c →
      (generateGeneralChatResponse llm).1 = c ∧
      handleGeneralChatReply llm = c) := by
  refine ⟨?_, fun e he => ?_, fun c hc => ?_⟩
  · cases llm <;> rfl
  · subst he; exact ⟨rfl, rfl⟩
  · subst hc; exact ⟨rfl, rfl⟩

/-- C8 witness: the amended theorem applied to a concrete LM outage. -/
theorem generalChat_fallback_spec_witness :
    (generateGeneralChatResponse (.error "service down")).2 = none ∧
    (generateGeneralChatResponse (.error "service down")).1 = generalChatFallback ∧
    handleGeneralChatReply (.error "service down") = handleGeneralChatFallback :=
  ⟨(generalChat_fallback_spec (.error "service down")).1,
   ((generalChat_fallback_spec (.error "service down")).2.1 "service down" rfl).1,
   ((generalChat_fallback_spec (.error "service down")).2.1 "service down" rfl).2⟩

/-! ## Claim C9 -/

/-- C9, confirmed.  ClearSession deletes exactly the given session's
short-term and working entries: the long-term tier (vector index and
metadata) is untouched, other sessions' entries are untouched, and every
long-term search—the only read path of the long-term tier—returns exactly
what it returned before the clear, so previously promoted or compressed
memories stay searchable. -/
theorem clearSession_frame_spec (st : ManagerState) (sid : String) :
    (clearSession st sid).longTerm = st.longTerm ∧
    lookupA (clearSession st sid).shortTerm sid = none ∧
    lookupA (clearSession st sid).working sid = none ∧
    (∀ sid2, sid2 ≠ sid →
      lookupA (clearSession st sid).shortTerm sid2 = lookupA st.shortTerm sid2 ∧
      lookupA (clearSession st sid).working sid2 = lookupA st.working sid2) ∧
    (∀ (embed : String → Option (List ℚ))
       (vsearch : List ℚ → Nat → Option (List SearchResultS))
       (now : Int) (query qsid : String) (topK : Nat),
      longTermSearch embed vsearch now (clearSession st sid).longTerm query qsid topK
        = longTermSearch embed vsearch now st.longTerm query qsid topK) :=
  ⟨rfl, lookupA_removeA_self _ _, lookupA_removeA_self _ _,
   fun _ h => ⟨lookupA_removeA_ne _ _ _ h, lookupA_removeA_ne _ _ _ h⟩,
   fun _ _ _ _ _ _ => rfl⟩

/-- C9 witness: clearing session s removes its short-term and working
entries, leaves session t's entries and the whole long-term tier in place,
and the memory promoted with importance 0.9 is still in the long-term
metadata. -/
theorem clearSession_frame_spec_witness :
    (clearSession c9St "s").longTerm = c9St.longTerm ∧
    lookupA (clearSession c9St "s").shortTerm "s" = none ∧
    lookupA (clearSession c9St "s").working "s" = none ∧
    ("t" : String) ≠ "s" ∧
    lookupA (clearSession c9St "s").shortTerm "t" = lookupA c9St.shortTerm "t" ∧
    mPromoted ∈ (clearSession c9St "s").longTerm.meta :=
  ⟨(clearSession_frame_spec c9St "s").1,
   (clearSession_frame_spec c9St "s").2.1,
   (clearSession_frame_spec c9St "s").2.2.1,
   by decide,
   ((clearSession_frame_spec c9St "s").2.2.2.1 "t" (by decide)).1,
   by rw [(clearSession_frame_spec c9St "s").1]; exact List.Mem.head _⟩

/-! ## Claim C10 -/

/-- C10, confirmed.  Every candidate Retrieve rebuilds from the working
store has importance 0, hence ranking score relevance × importance = 0 for
every query and every decay; the returned list is sorted by score
descending, so an element of score 0 — in particular every working-store
candidate — never precedes (never outranks) an element of strictly positive
score. -/
theorem retrieve_working_zero_spec (decayOf : Memory → ℚ)
    (embed : String → Option (List ℚ))
    (vsearch : List ℚ → Nat → Option (List SearchResultS)) (now ttl : Int)
    (st : ManagerState) (query sid : String) (topK : Nat) :
    (∀ kv ∈ workingGetAll st.working sid,
      (workingCandidate sid kv).importance = 0 ∧
      scoreOf decayOf query (workingCandidate sid kv) = 0) ∧
    (∀ i j : Fin (managerRetrieve decayOf embed vsearch now ttl st query sid topK).1.length,
      i < j →
      scoreOf decayOf query
          ((managerRetrieve decayOf embed vsearch now ttl st query sid topK).1.get j)
        ≤ scoreOf decayOf query
          ((managerRetrieve decayOf embed vsearch now ttl st query sid topK).1.get i)) ∧
    (∀ i j : Fin (managerRetrieve decayOf embed vsearch now ttl st query sid topK).1.length,
      i < j →
      scoreOf decayOf query
          ((managerRetrieve decayOf embed vsearch now ttl st query sid topK).1.get i) = 0 →
      ¬ (0 < scoreOf decayOf query
          ((managerRetrieve decayOf embed vsearch now ttl st query sid topK).1.get j))) := by
  have hsorted :
      List.Sorted (scoreRel decayOf query)
        (managerRetrieve decayOf embed vsearch now ttl st query sid topK).1 := by
    unfold managerRetrieve
    dsimp only
    exact List.Pairwise.sublist (List.take_sublist _ _)
      (List.sorted_insertionSort (scoreRel decayOf query) _)
  have h2 : ∀ i j : Fin (managerRetrieve decayOf embed vsearch now ttl st query sid topK).1.length,
      i < j →
      scoreOf decayOf query
          ((managerRetrieve decayOf embed vsearch now ttl st query sid topK).1.get j)
        ≤ scoreOf decayOf query
          ((managerRetrieve decayOf embed vsearch now ttl st query sid topK).1.get i) :=
    fun i j hij => hsorted.rel_get_of_lt hij
  refine ⟨fun kv _ => ⟨rfl, by simp [scoreOf, workingCandidate]⟩, h2,
    fun i j hij h0 hpos => ?_⟩
  have := h2 i j hij
  rw [h0] at this
  exact absurd (lt_of_lt_of_le hpos this) (lt_irrefl 0)

/-- C10 witness: a working entry (score 0) and an exact-match importance-1
short-term entry (score 1); in the retrieved list the positive-score entry
comes first and the working entry's score stays 0. -/
theorem retrieve_working_zero_spec_witness :
    ("k1", "hello") ∈ workingGetAll c10St.working "s" ∧
    (workingCandidate "s" ("k1", "hello")).importance = 0 ∧
    scoreOf (fun _ => 1) "q" (workingCandidate "s" ("k1", "hello")) = 0 ∧
    (managerRetrieve (fun _ => 1) (fun _ => none) (fun _ _ => none) 1 10 c10St "q" "s" 5).1.length = 2 ∧
    scoreOf (fun _ => 1) "q"
        ((managerRetrieve (fun _ => 1) (fun _ => none) (fun _ _ => none) 1 10 c10St "q" "s" 5).1.get
          ⟨1, by with_unfolding_all decide⟩)
      ≤ scoreOf (fun _ => 1) "q"
        ((managerRetrieve (fun _ => 1) (fun _ => none) (fun _ _ => none) 1 10 c10St "q" "s" 5).1.get
          ⟨0, by with_unfolding_all decide⟩) :=
  ⟨by decide,
   ((retrieve_working_zero_spec (fun _ => 1) (fun _ => none) (fun _ _ => none) 1 10
      c10St "q" "s" 5).1 ("k1", "hello") (by decide)).1,
   ((retrieve_working_zero_spec (fun _ => 1) (fun _ => none) (fun _ _ => none) 1 10
      c10St "q" "s" 5).1 ("k1", "hello") (by decide)).2,
   by with_unfolding_all decide,
   (retrieve_working_zero_spec (fun _ => 1) (fun _ => none) (fun _ _ => none) 1 10
      c10St "q" "s" 5).2.1 ⟨0, by with_unfolding_all decide⟩
     ⟨1, by with_unfolding_all decide⟩ (by decide)⟩

end VideoAgent
